import Mathlib

/-!
Verification development for the int_endian repository (src/int_endian.h).

The header defines byte-reversal primitives for 16/32/64-bit unsigned
patterns and endian-tagged wrapper templates for integers, float and
double.  We embed the header shallowly: machine-integer bit patterns are
natural numbers below 2 ^ width, signed values are read off a pattern by
two's complement, and every stateful wrapper is represented by its single
stored field (the raw pattern).  The embedding follows the generic
(non-ARM, non-unrolled) preprocessor branches, which are the portable
reference semantics of the header.
-/

/- ===================== byte-reversal primitives ===================== -/

/-- Lines 28-44 of src/int_endian.h, generic branch:
`return ((v & 0xff) << 8) | ((v & 0xff00) >> 8);` on a `uint16_t`. -/
def _generic_swap16 (v : Nat) : Nat :=
  ((v &&& 0xff) <<< 8) ||| ((v &&& 0xff00) >>> 8)

/-- The loop body shared by the generic branches of `_generic_swap32`
(lines 62-67) and `_generic_swap64` (lines 96-101):
`ret = (ret << 8) | (tmp & 0xff); tmp >>= 8;`, iterated `n` times with
accumulator `ret` and remaining input `tmp`. -/
def swapIter : Nat → Nat → Nat → Nat
  | 0, ret, _ => ret
  | n + 1, ret, tmp => swapIter n ((ret <<< 8) ||| (tmp &&& 0xff)) (tmp >>> 8)

/-- Lines 46-70: the generic branch loops the swap step four times over a
`uint32_t`, starting from `ret = 0`. -/
def _generic_swap32 (v : Nat) : Nat := swapIter 4 0 v

/-- Lines 72-104: the generic branch loops the swap step eight times over a
`uint64_t`, starting from `ret = 0`. -/
def _generic_swap64 (v : Nat) : Nat := swapIter 8 0 v

/- ============== arithmetic characterization of the swaps ============== -/

lemma and_255_eq_mod (x : Nat) : x &&& 255 = x % 256 := by
  have h : (255 : Nat) = 2 ^ 8 - 1 := by norm_num
  rw [h, Nat.and_pow_two_sub_one_eq_mod]

lemma and_65280_shr (x : Nat) : (x &&& 65280) >>> 8 = x / 256 % 256 := by
  apply Nat.eq_of_testBit_eq
  intro i
  rw [Nat.testBit_shiftRight, Nat.testBit_and]
  have h255 : (65280 : Nat) = (2 ^ 8 - 1) <<< 8 := by decide
  rw [h255, Nat.testBit_shiftLeft, Nat.testBit_two_pow_sub_one]
  have hdiv : x / 256 = x >>> 8 := by
    rw [Nat.shiftRight_eq_div_pow]
  have h256 : (256 : Nat) = 2 ^ 8 := by norm_num
  rw [hdiv, h256, Nat.testBit_mod_two_pow, Nat.testBit_shiftRight]
  have h1 : 8 + i ≥ 8 := by omega
  have h2 : 8 + i - 8 = i := by omega
  simp [h1, h2, Bool.and_comm]

lemma swap16_eq (x : Nat) :
    _generic_swap16 x = 256 * (x % 256) + x / 256 % 256 := by
  unfold _generic_swap16
  have h255 : (0xff : Nat) = 255 := rfl
  have h65280 : (0xff00 : Nat) = 65280 := rfl
  rw [h255, h65280, and_255_eq_mod, and_65280_shr, Nat.shiftLeft_eq,
    Nat.mul_comm (x % 256) (2 ^ 8)]
  have hlt : x / 256 % 256 < 2 ^ 8 := by
    have := Nat.mod_lt (x / 256) (show 0 < 256 by norm_num)
    omega
  rw [← Nat.mul_add_lt_is_or hlt (x % 256)]

lemma swapIter_step (ret tmp : Nat) :
    (ret <<< 8) ||| (tmp &&& 0xff) = 256 * ret + tmp % 256 := by
  have h255 : (0xff : Nat) = 255 := rfl
  rw [h255, and_255_eq_mod, Nat.shiftLeft_eq, Nat.mul_comm ret (2 ^ 8)]
  have hlt : tmp % 256 < 2 ^ 8 := by
    have := Nat.mod_lt tmp (show 0 < 256 by norm_num)
    omega
  rw [← Nat.mul_add_lt_is_or hlt ret]

/-- The little-endian byte decomposition of a pattern, `n` bytes long. -/
def bytesLE : Nat → Nat → List Nat
  | 0, _ => []
  | n + 1, t => t % 256 :: bytesLE n (t / 256)

lemma bytesLE_length : ∀ n t, (bytesLE n t).length = n := by
  intro n
  induction n with
  | zero => intro t; rfl
  | succ n ih => intro t; simp [bytesLE, ih]

lemma bytesLE_lt : ∀ n t d, d ∈ bytesLE n t → d < 256 := by
  intro n
  induction n with
  | zero => intro t d h; simp [bytesLE] at h
  | succ n ih =>
    intro t d h
    simp only [bytesLE, List.mem_cons] at h
    rcases h with h | h
    · omega
    · exact ih _ _ h

lemma swapIter_foldl : ∀ n ret tmp,
    swapIter n ret tmp = List.foldl (fun a d => 256 * a + d) ret (bytesLE n tmp) := by
  intro n
  induction n with
  | zero => intro ret tmp; rfl
  | succ n ih =>
    intro ret tmp
    have hshr : tmp >>> 8 = tmp / 256 := by
      rw [Nat.shiftRight_eq_div_pow]
    simp only [swapIter, bytesLE, List.foldl_cons, swapIter_step, hshr, ih]

lemma foldl_ofDigits : ∀ (l : List Nat) (a : Nat),
    List.foldl (fun x d => 256 * x + d) a l =
      Nat.ofDigits 256 l.reverse + a * 256 ^ l.length := by
  intro l
  induction l with
  | nil => intro a; simp [Nat.ofDigits]
  | cons d ds ih =>
    intro a
    simp only [List.foldl_cons, ih, List.reverse_cons, Nat.ofDigits_append,
      List.length_reverse, List.length_cons]
    have hsing : Nat.ofDigits 256 [d] = d := by
      simp [Nat.ofDigits]
    rw [hsing]
    ring

lemma ofDigits_bytesLE : ∀ n t, Nat.ofDigits 256 (bytesLE n t) = t % 256 ^ n := by
  intro n
  induction n with
  | zero => intro t; simp [bytesLE, Nat.ofDigits, Nat.mod_one]
  | succ n ih =>
    intro t
    simp only [bytesLE, Nat.ofDigits_cons, ih, Nat.cast_id]
    have h : (256 : Nat) ^ (n + 1) = 256 * 256 ^ n := by ring
    rw [h, Nat.mod_mul]

lemma bytesLE_ofDigits : ∀ (l : List Nat), (∀ d ∈ l, d < 256) →
    bytesLE l.length (Nat.ofDigits 256 l) = l := by
  intro l
  induction l with
  | nil => intro _; rfl
  | cons d ds ih =>
    intro h
    have hd : d < 256 := h d (List.mem_cons_self d ds)
    have hds : ∀ x ∈ ds, x < 256 := fun x hx => h x (List.mem_cons_of_mem d hx)
    simp only [List.length_cons, bytesLE, Nat.ofDigits_cons, Nat.cast_id]
    have hmod : (d + 256 * Nat.ofDigits 256 ds) % 256 = d := by omega
    have hdiv : (d + 256 * Nat.ofDigits 256 ds) / 256 = Nat.ofDigits 256 ds := by
      omega
    rw [hmod, hdiv, ih hds]

lemma swapIter_zero_eq (n t : Nat) :
    swapIter n 0 t = Nat.ofDigits 256 (bytesLE n t).reverse := by
  rw [swapIter_foldl, foldl_ofDigits]
  simp

lemma swapIter_zero_lt (n t : Nat) : swapIter n 0 t < 256 ^ n := by
  rw [swapIter_zero_eq]
  have h := Nat.ofDigits_lt_base_pow_length (b := 256) (l := (bytesLE n t).reverse)
    (by norm_num) (fun x hx => bytesLE_lt n t x (List.mem_reverse.mp hx))
  simpa [bytesLE_length] using h

lemma swapIter_zero_invol (n t : Nat) (h : t < 256 ^ n) :
    swapIter n 0 (swapIter n 0 t) = t := by
  rw [swapIter_zero_eq, swapIter_zero_eq]
  have hlen : (bytesLE n t).reverse.length = n := by simp [bytesLE_length]
  have hmem : ∀ d ∈ (bytesLE n t).reverse, d < 256 :=
    fun d hd => bytesLE_lt n t d (List.mem_reverse.mp hd)
  have h1 := bytesLE_ofDigits (bytesLE n t).reverse hmem
  rw [hlen] at h1
  rw [h1, List.reverse_reverse, ofDigits_bytesLE, Nat.mod_eq_of_lt h]

lemma swap16_lt (v : Nat) : _generic_swap16 v < 2 ^ 16 := by
  rw [swap16_eq]
  have h1 : v % 256 < 256 := Nat.mod_lt v (by norm_num)
  have h2 : v / 256 % 256 < 256 := Nat.mod_lt _ (by norm_num)
  have h3 : (2 : Nat) ^ 16 = 65536 := by norm_num
  omega

lemma swap32_lt (v : Nat) : _generic_swap32 v < 2 ^ 32 := by
  have h := swapIter_zero_lt 4 v
  have h2 : (256 : Nat) ^ 4 = 2 ^ 32 := by norm_num
  unfold _generic_swap32
  omega

lemma swap64_lt (v : Nat) : _generic_swap64 v < 2 ^ 64 := by
  have h := swapIter_zero_lt 8 v
  have h2 : (256 : Nat) ^ 8 = 2 ^ 64 := by norm_num
  unfold _generic_swap64
  omega

lemma swap16_eq_iter (x : Nat) : _generic_swap16 x = swapIter 2 0 x := by
  rw [swap16_eq, swapIter_zero_eq]
  simp [bytesLE, Nat.ofDigits]
  ring

lemma swap16_invol (x : Nat) (h : x < 2 ^ 16) :
    _generic_swap16 (_generic_swap16 x) = x := by
  rw [swap16_eq_iter, swap16_eq_iter]
  exact swapIter_zero_invol 2 x (by norm_num at h ⊢; omega)

lemma swap32_invol (x : Nat) (h : x < 2 ^ 32) :
    _generic_swap32 (_generic_swap32 x) = x := by
  unfold _generic_swap32
  exact swapIter_zero_invol 4 x (by norm_num at h ⊢; omega)

lemma swap64_invol (x : Nat) (h : x < 2 ^ 64) :
    _generic_swap64 (_generic_swap64 x) = x := by
  unfold _generic_swap64
  exact swapIter_zero_invol 8 x (by norm_num at h ⊢; omega)

/- ===================== 8-bit typedefs (lines 15-18) ===================== -/

/-- The native 8-bit unsigned type, as the type of 8-bit patterns. -/
def uint8_t : Type := Fin 256

/-- The native 8-bit signed type; its values are carried as 8-bit
two's-complement patterns. -/
def int8_t : Type := Fin 256

/-- Line 15: typedef int8_t int8_be. -/
def int8_be : Type := int8_t

/-- Line 16: typedef uint8_t uint8_be. -/
def uint8_be : Type := uint8_t

/-- Line 17: typedef int8_t int8_le. -/
def int8_le : Type := int8_t

/-- Line 18: typedef uint8_t uint8_le. -/
def uint8_le : Type := uint8_t

/-- Assignment to a plain typedef of a native 8-bit scalar: no wrapper code
exists at width 8, so storing a value is the identity on its pattern. -/
def native8_assign (v : Fin 256) : Fin 256 := v

/-- Reading a plain typedef of a native 8-bit scalar: the identity. -/
def native8_read (v : Fin 256) : Fin 256 := v

/- ============ the endian-tagged integer wrapper (lines 108-165) ============ -/

/-- The swap condition of the preprocessor-selected branch in byte_order
(lines 114-130): on a little-endian host the value is swapped exactly when
the declared order is big-endian; on a non-little-endian host exactly when
the declared order is not big-endian. -/
def needSwap (isBigEndian hostLittle : Bool) : Bool :=
  if hostLittle then isBigEndian else !isBigEndian

/-- The host byte order as a declared-order tag: a host is big-endian
exactly when the build does not select the little-endian branch. -/
def hostIsBigEndian (hostLittle : Bool) : Bool := !hostLittle

/-- The size dispatch of byte_order (lines 116-120 and 124-128):
sizeof 2 calls _generic_swap16, 4 calls _generic_swap32, 8 calls
_generic_swap64, anything else yields 0. -/
def swapBySize (nbytes x : Nat) : Nat :=
  if nbytes = 2 then _generic_swap16 x
  else if nbytes = 4 then _generic_swap32 x
  else if nbytes = 8 then _generic_swap64 x
  else 0

/-- Lines 112-132, _generic_endian::byte_order: ret starts as v and is
overwritten with the size-dispatched swap when the declared order differs
from the host order; the uint64_t-typed ternary result is truncated to the
wrapper width on assignment to the _T-typed ret. -/
def byte_order (nbytes : Nat) (isBigEndian hostLittle : Bool) (v : Nat) : Nat :=
  if needSwap isBigEndian hostLittle then swapBySize nbytes v % 2 ^ (8 * nbytes)
  else v

/-- The two's-complement bit pattern of a host-native signed integer of
nbytes bytes, as produced by the C++ conversion to the equal-width
unsigned type. -/
def toBits (nbytes : Nat) (v : Int) : Nat := (v % ((2 : Int) ^ (8 * nbytes))).toNat

/-- Reading a bit pattern back as a host-native signed integer of nbytes
bytes (two's complement). -/
def ofBitsSigned (nbytes b : Nat) : Int :=
  if b < 2 ^ (8 * nbytes - 1) then (b : Int) else (b : Int) - 2 ^ (8 * nbytes)

/-- Lines 139-140, the value constructor: _raw is initialized with
byte_order(val).  The wrapper state is its single _raw field, here for a
signed underlying type. -/
def intConstruct (nbytes : Nat) (isBigEndian hostLittle : Bool) (v : Int) : Nat :=
  byte_order nbytes isBigEndian hostLittle (toBits nbytes v)

/-- Lines 139-140 for an unsigned underlying type. -/
def uintConstruct (nbytes : Nat) (isBigEndian hostLittle : Bool) (v : Nat) : Nat :=
  byte_order nbytes isBigEndian hostLittle v

/-- Line 162, operator _T: the stored _raw is passed through byte_order
again and returned; signed underlying type. -/
def intRead (nbytes : Nat) (isBigEndian hostLittle : Bool) (s : Nat) : Int :=
  ofBitsSigned nbytes (byte_order nbytes isBigEndian hostLittle s)

/-- Line 162 for an unsigned underlying type. -/
def uintRead (nbytes : Nat) (isBigEndian hostLittle : Bool) (s : Nat) : Nat :=
  byte_order nbytes isBigEndian hostLittle s

/-- Line 164, raw(): returns the stored _raw with no conversion. -/
def intRaw (s : Nat) : Nat := s

/-- Line 137, the default constructor: _raw(0). -/
def intDefault : Nat := 0

/-- Lines 145-148, the copy constructor: _raw = v._raw, verbatim. -/
def intCopy (s : Nat) : Nat := s

/- ============ the float wrapper (lines 184-225) ============ -/

/-- Lines 188-203, _generic_float::byte_order, on the bit pattern of the
float.  Two local unions val and ret are declared; val.i is set to the
argument pattern.  When the declared order differs from the host order,
ret.i is assigned the 32-bit swap; otherwise ret is never written and
ret.i holds an indeterminate (uninitialized) pattern, modelled by the
explicit junk parameter.  Line 201 then copies ret.i into val.i
unconditionally, and line 202 returns val.f. -/
def float_byte_order (isBigEndian hostLittle : Bool) (junk v : Nat) : Nat :=
  if needSwap isBigEndian hostLittle then _generic_swap32 v else junk

/-- Line 211, the float value constructor: _raw = byte_order(val). -/
def floatConstruct (isBigEndian hostLittle : Bool) (junk v : Nat) : Nat :=
  float_byte_order isBigEndian hostLittle junk v

/-- Line 222, operator float: returns byte_order(_raw). -/
def floatRead (isBigEndian hostLittle : Bool) (junk s : Nat) : Nat :=
  float_byte_order isBigEndian hostLittle junk s

/-- Lines 206-209, the float default constructor: _raw = byte_order(0.0f);
the bit pattern of 0.0f is 0. -/
def floatDefault (isBigEndian hostLittle : Bool) (junk : Nat) : Nat :=
  float_byte_order isBigEndian hostLittle junk 0

/-- Line 224, raw(): the stored pattern, unconverted. -/
def floatRaw (s : Nat) : Nat := s

/-- Lines 213-215, the float copy constructor: _raw = v._raw, verbatim. -/
def floatCopy (s : Nat) : Nat := s

/- ============ the double wrapper (lines 232-273) ============ -/

/-- Lines 236-250, _generic_double::byte_order, on the bit pattern of the
double.  When the declared order differs from the host order, ret.i is
assigned the 64-bit swap of val.i, but - unlike the float wrapper - val is
never updated from ret: line 249 returns val.f, the unconverted original
pattern.  The computed swap is discarded, so the function is the identity
on both paths (and the unread uninitialized ret is irrelevant). -/
def double_byte_order (isBigEndian hostLittle : Bool) (v : Nat) : Nat :=
  let _ret := if needSwap isBigEndian hostLittle then _generic_swap64 v else 0
  v

/-- Lines 258-259, the double value constructor: _raw = byte_order(val). -/
def doubleConstruct (isBigEndian hostLittle : Bool) (v : Nat) : Nat :=
  double_byte_order isBigEndian hostLittle v

/-- Line 270, operator double: returns byte_order(_raw). -/
def doubleRead (isBigEndian hostLittle : Bool) (s : Nat) : Nat :=
  double_byte_order isBigEndian hostLittle s

/-- Lines 253-256, the double default constructor: _raw = byte_order(0.0);
the bit pattern of 0.0 is 0. -/
def doubleDefault (isBigEndian hostLittle : Bool) : Nat :=
  double_byte_order isBigEndian hostLittle 0

/-- Line 272, raw(): the stored pattern, unconverted. -/
def doubleRaw (s : Nat) : Nat := s

/-- Lines 261-263, the double copy constructor: _raw = v._raw, verbatim. -/
def doubleCopy (s : Nat) : Nat := s

/- ===================== bridge lemmas ===================== -/

lemma swapBySize_lt (nbytes x : Nat) (hn : nbytes = 2 ∨ nbytes = 4 ∨ nbytes = 8) :
    swapBySize nbytes x < 2 ^ (8 * nbytes) := by
  rcases hn with h | h | h <;> subst h
  · simpa [swapBySize] using swap16_lt x
  · simpa [swapBySize] using swap32_lt x
  · simpa [swapBySize] using swap64_lt x

lemma swapBySize_invol (nbytes x : Nat) (hn : nbytes = 2 ∨ nbytes = 4 ∨ nbytes = 8)
    (hx : x < 2 ^ (8 * nbytes)) : swapBySize nbytes (swapBySize nbytes x) = x := by
  rcases hn with h | h | h <;> subst h <;> simp only [swapBySize] <;> norm_num at hx ⊢
  · exact swap16_invol x (by norm_num; omega)
  · exact swap32_invol x (by norm_num; omega)
  · exact swap64_invol x (by norm_num; omega)

lemma byte_order_invol (nbytes : Nat) (isBigEndian hostLittle : Bool) (x : Nat)
    (hn : nbytes = 2 ∨ nbytes = 4 ∨ nbytes = 8) (hx : x < 2 ^ (8 * nbytes)) :
    byte_order nbytes isBigEndian hostLittle
      (byte_order nbytes isBigEndian hostLittle x) = x := by
  unfold byte_order
  cases hsw : needSwap isBigEndian hostLittle
  · simp
  · simp only [if_pos]
    rw [Nat.mod_eq_of_lt (swapBySize_lt nbytes x hn),
      swapBySize_invol nbytes x hn hx, Nat.mod_eq_of_lt hx]

lemma toBits_lt (nbytes : Nat) (v : Int) (hn : nbytes = 2 ∨ nbytes = 4 ∨ nbytes = 8) :
    toBits nbytes v < 2 ^ (8 * nbytes) := by
  rcases hn with h | h | h <;> subst h <;> unfold toBits <;> norm_num <;> omega

lemma signed_roundtrip (nbytes : Nat) (v : Int) (hn : nbytes = 2 ∨ nbytes = 4 ∨ nbytes = 8)
    (h1 : -(2 ^ (8 * nbytes - 1)) ≤ v) (h2 : v < 2 ^ (8 * nbytes - 1)) :
    ofBitsSigned nbytes (toBits nbytes v) = v := by
  rcases hn with h | h | h <;> subst h <;>
    (unfold ofBitsSigned toBits
     norm_num at h1 h2 ⊢
     split_ifs <;> omega)

/- ===================== claims ===================== -/

/-- C1: for every integer width in {16, 32, 64} (nbytes in {2, 4, 8}), both
signednesses, both declared byte orders and either host order, reading back
a wrapper constructed from any representable host-native integer v returns
v exactly, including all negative two's-complement values. -/
theorem c1_integer_roundtrip (nbytes : Nat)
    (hn : nbytes = 2 ∨ nbytes = 4 ∨ nbytes = 8) (isBigEndian hostLittle : Bool) :
    (∀ v : Int, -(2 ^ (8 * nbytes - 1)) ≤ v → v < 2 ^ (8 * nbytes - 1) →
      intRead nbytes isBigEndian hostLittle
        (intConstruct nbytes isBigEndian hostLittle v) = v) ∧
    (∀ u : Nat, u < 2 ^ (8 * nbytes) →
      uintRead nbytes isBigEndian hostLittle
        (uintConstruct nbytes isBigEndian hostLittle u) = u) := by
  constructor
  · intro v h1 h2
    unfold intRead intConstruct
    rw [byte_order_invol nbytes isBigEndian hostLittle _ hn (toBits_lt nbytes v hn)]
    exact signed_roundtrip nbytes v hn h1 h2
  · intro u hu
    unfold uintRead uintConstruct
    exact byte_order_invol nbytes isBigEndian hostLittle u hn hu

theorem c1_integer_roundtrip_witness :
    intRead 2 true true (intConstruct 2 true true (-2)) = -2 ∧
    uintRead 4 false true (uintConstruct 4 false true 305419896) = 305419896 :=
  ⟨(c1_integer_roundtrip 2 (Or.inl rfl) true true).1 (-2) (by norm_num) (by norm_num),
   (c1_integer_roundtrip 4 (Or.inr (Or.inl rfl)) false true).2 305419896 (by norm_num)⟩

/-- C4: each byte-reversal primitive is its own inverse on every bit pattern
of its width. -/
theorem c4_swap_self_inverse :
    (∀ x : Nat, x < 2 ^ 16 → _generic_swap16 (_generic_swap16 x) = x) ∧
    (∀ x : Nat, x < 2 ^ 32 → _generic_swap32 (_generic_swap32 x) = x) ∧
    (∀ x : Nat, x < 2 ^ 64 → _generic_swap64 (_generic_swap64 x) = x) :=
  ⟨swap16_invol, swap32_invol, swap64_invol⟩

theorem c4_swap_self_inverse_witness :
    _generic_swap16 (_generic_swap16 4660) = 4660 ∧
    _generic_swap32 (_generic_swap32 305419896) = 305419896 ∧
    _generic_swap64 (_generic_swap64 81985529216486895) = 81985529216486895 :=
  ⟨c4_swap_self_inverse.1 4660 (by norm_num),
   c4_swap_self_inverse.2.1 305419896 (by norm_num),
   c4_swap_self_inverse.2.2 81985529216486895 (by norm_num)⟩

/-- C5: for every integer wrapper width and every value, when the declared
byte order differs from the host byte order, the raw stored bits after
construction equal the byte-reversal of the value's bit pattern. -/
theorem c5_mismatch_stores_reversed (nbytes : Nat)
    (hn : nbytes = 2 ∨ nbytes = 4 ∨ nbytes = 8) (isBigEndian hostLittle : Bool)
    (hmis : isBigEndian ≠ hostIsBigEndian hostLittle) :
    (∀ u : Nat, u < 2 ^ (8 * nbytes) →
      intRaw (uintConstruct nbytes isBigEndian hostLittle u) = swapBySize nbytes u) ∧
    (∀ v : Int, -(2 ^ (8 * nbytes - 1)) ≤ v → v < 2 ^ (8 * nbytes - 1) →
      intRaw (intConstruct nbytes isBigEndian hostLittle v)
        = swapBySize nbytes (toBits nbytes v)) := by
  have hsw : needSwap isBigEndian hostLittle = true := by
    cases isBigEndian <;> cases hostLittle <;> simp_all [needSwap, hostIsBigEndian]
  constructor
  · intro u hu
    simp only [intRaw, uintConstruct, byte_order, hsw, if_true]
    exact Nat.mod_eq_of_lt (swapBySize_lt nbytes u hn)
  · intro v h1 h2
    simp only [intRaw, intConstruct, byte_order, hsw, if_true]
    exact Nat.mod_eq_of_lt (swapBySize_lt nbytes _ hn)

theorem c5_mismatch_stores_reversed_witness :
    intRaw (uintConstruct 2 true true 4660) = swapBySize 2 4660 ∧
    swapBySize 2 4660 = 13330 :=
  ⟨(c5_mismatch_stores_reversed 2 (Or.inl rfl) true true (by decide)).1 4660
    (by norm_num), by simp [swapBySize, swap16_eq]⟩

/-- C6: for every integer wrapper width and every value, when the declared
byte order equals the host byte order, construction stores the value's bit
pattern unchanged. -/
theorem c6_match_stores_unchanged (nbytes : Nat)
    (_hn : nbytes = 2 ∨ nbytes = 4 ∨ nbytes = 8) (isBigEndian hostLittle : Bool)
    (hmat : isBigEndian = hostIsBigEndian hostLittle) :
    (∀ u : Nat, u < 2 ^ (8 * nbytes) →
      intRaw (uintConstruct nbytes isBigEndian hostLittle u) = u) ∧
    (∀ v : Int, -(2 ^ (8 * nbytes - 1)) ≤ v → v < 2 ^ (8 * nbytes - 1) →
      intRaw (intConstruct nbytes isBigEndian hostLittle v) = toBits nbytes v) := by
  have hsw : needSwap isBigEndian hostLittle = false := by
    cases isBigEndian <;> cases hostLittle <;> simp_all [needSwap, hostIsBigEndian]
  constructor
  · intro u hu
    simp [intRaw, uintConstruct, byte_order, hsw]
  · intro v h1 h2
    simp [intRaw, intConstruct, byte_order, hsw]

theorem c6_match_stores_unchanged_witness :
    intRaw (uintConstruct 4 true false 305419896) = 305419896 :=
  (c6_match_stores_unchanged 4 (Or.inr (Or.inl rfl)) true false (by decide)).1
    305419896 (by norm_num)

/-- Rewriting helpers for the float wrapper, kept fully general so that no
concrete bit pattern is ever reduced definitionally. -/
lemma floatRaw_floatConstruct (isBigEndian hostLittle : Bool) (junk v : Nat) :
    floatRaw (floatConstruct isBigEndian hostLittle junk v)
      = float_byte_order isBigEndian hostLittle junk v := rfl

lemma floatRead_floatConstruct (isBigEndian hostLittle : Bool) (junkC junkR v : Nat) :
    floatRead isBigEndian hostLittle junkR (floatConstruct isBigEndian hostLittle junkC v)
      = float_byte_order isBigEndian hostLittle junkR
          (float_byte_order isBigEndian hostLittle junkC v) := rfl

lemma float_byte_order_mismatch (isBigEndian hostLittle : Bool) (junk v : Nat)
    (h : needSwap isBigEndian hostLittle = true) :
    float_byte_order isBigEndian hostLittle junk v = _generic_swap32 v := by
  unfold float_byte_order
  rw [h]
  simp

lemma swap32_bits_one_float : _generic_swap32 0x3F800000 = 0x0000803F := by
  unfold _generic_swap32
  rw [swapIter_zero_eq]
  norm_num [bytesLE, Nat.ofDigits]

/-- C7: for the 32-bit float wrapper with big-endian declared order on a
little-endian host, constructing from 1.0f (bit pattern 0x3F800000) stores
the raw pattern 0x0000803F, and reading back returns the bit pattern of
1.0f exactly, whatever the uninitialized local union happened to hold. -/
theorem c7_float_be_on_le_host_example :
    (∀ junk : Nat, floatRaw (floatConstruct true true junk 0x3F800000) = 0x0000803F) ∧
    (∀ junkC junkR : Nat,
      floatRead true true junkR (floatConstruct true true junkC 0x3F800000)
        = 0x3F800000) := by
  constructor
  · intro junk
    rw [floatRaw_floatConstruct, float_byte_order_mismatch true true junk 0x3F800000 rfl]
    exact swap32_bits_one_float
  · intro junkC junkR
    rw [floatRead_floatConstruct,
      float_byte_order_mismatch true true junkC 0x3F800000 rfl,
      float_byte_order_mismatch true true junkR (_generic_swap32 0x3F800000) rfl]
    exact swap32_invol 0x3F800000 (by norm_num)

/-- C2: the claim demands a bit-exact floating round-trip for both declared
orders; the code breaks it when the declared order equals the host order,
because _generic_float::byte_order then reads the never-written union ret
(line 201 copies uninitialized ret.i into val.i), so a declared-little
float on a little-endian host reads back the indeterminate pattern, not the
stored value.  With the indeterminate contents taken to be 0, constructing
from 1.0f (0x3F800000) reads back 0. -/
theorem c2_float_matched_order_roundtrip_broken :
    (∀ junkC junkR v : Nat,
      floatRead false true junkR (floatConstruct false true junkC v) = junkR) ∧
    floatRead false true 0 (floatConstruct false true 0 0x3F800000) = 0 := by
  constructor
  · intro junkC junkR v
    simp [floatRead, floatConstruct, float_byte_order, needSwap]
  · simp [floatRead, floatConstruct, float_byte_order, needSwap]

/-- C3: the claim demands that the stored bits are always in the declared
order; the double wrapper violates it, since _generic_double::byte_order
discards the computed swap and returns the unconverted value, so a
declared-big double on a little-endian host stores the host-order pattern.
For 1.0 (pattern 0x3FF0000000000000) the stored raw bits remain
0x3FF0000000000000, while a big-endian buffer would hold the byte-reversed
0x000000000000F03F. -/
theorem c3_double_mismatch_raw_keeps_host_order :
    doubleRaw (doubleConstruct true true 0x3FF0000000000000) = 0x3FF0000000000000 ∧
    _generic_swap64 0x3FF0000000000000 = 0x000000000000F03F ∧
    (0x3FF0000000000000 : Nat) ≠ 0x000000000000F03F := by
  refine ⟨rfl, ?_, by norm_num⟩
  unfold _generic_swap64
  rw [swapIter_zero_eq]
  norm_num [bytesLE, Nat.ofDigits]

/-- C8: the claim demands the all-zero pattern from default construction for
every wrapper; the integer and double wrappers satisfy it, and so does the
float wrapper when the orders differ, but a default-constructed float whose
declared order equals the host order stores the indeterminate contents of
the uninitialized union ret, not zero. -/
theorem c8_default_zero_except_float_matched_order :
    intDefault = 0 ∧
    (∀ isBigEndian hostLittle : Bool, doubleDefault isBigEndian hostLittle = 0) ∧
    (∀ junk : Nat, floatDefault true true junk = 0) ∧
    (∀ junk : Nat, floatDefault false true junk = junk) ∧
    floatDefault false true 0xDEADBEEF = 0xDEADBEEF :=
  ⟨rfl, fun _ _ => rfl, fun _ => rfl, fun _ => rfl, rfl⟩

/-- C9: for every wrapper type and both declared orders, copy-construction
from another wrapper of the identical type copies the raw stored bits
verbatim, with no byte-order conversion, for every source value. -/
theorem c9_copy_preserves_raw_bits :
    (∀ s : Nat, intRaw (intCopy s) = intRaw s) ∧
    (∀ s : Nat, floatRaw (floatCopy s) = floatRaw s) ∧
    (∀ s : Nat, doubleRaw (doubleCopy s) = doubleRaw s) ∧
    (∀ nbytes : Nat, ∀ isBigEndian hostLittle : Bool, ∀ v : Int,
      intCopy (intConstruct nbytes isBigEndian hostLittle v)
        = intConstruct nbytes isBigEndian hostLittle v) ∧
    (∀ isBigEndian hostLittle : Bool, ∀ junk v : Nat,
      floatCopy (floatConstruct isBigEndian hostLittle junk v)
        = floatConstruct isBigEndian hostLittle junk v) ∧
    (∀ isBigEndian hostLittle : Bool, ∀ v : Nat,
      doubleCopy (doubleConstruct isBigEndian hostLittle v)
        = doubleConstruct isBigEndian hostLittle v) :=
  ⟨fun _ => rfl, fun _ => rfl, fun _ => rfl, fun _ _ _ _ => rfl,
   fun _ _ _ _ => rfl, fun _ _ _ => rfl⟩

/-- C10: the 8-bit endian-tagged types are plain typedef aliases of the
native 8-bit integer types, so no wrapper exists at width 8: the big- and
little-endian variants are the same type, and storing or reading an 8-bit
value is the identity on its pattern. -/
theorem c10_eight_bit_plain_aliases :
    int8_be = int8_t ∧ int8_le = int8_t ∧ uint8_be = uint8_t ∧ uint8_le = uint8_t ∧
    int8_be = int8_le ∧ uint8_be = uint8_le ∧
    (∀ v : Fin 256, native8_assign v = v ∧ native8_read v = v) :=
  ⟨rfl, rfl, rfl, rfl, rfl, rfl, fun _ => ⟨rfl, rfl⟩⟩
